import Mathlib

/-!
Verification of the pyan command surface (`src/pyan/main.py`) against its
natural-language specification.

The only source file of the repository is `pyan/main.py`; the analyzer,
the visual-graph builder and the writers are external to the sources we
have, so they appear here either as abstract parameters of the pipeline
or, where a claim is decided by them, as definitions modelled from the
specification (marked `Modelled from the spec:` in their doc comment).
Strings handed to the dotted-name parsing are modelled as lists of
characters (the data underlying a Lean `String`).
-/

/-- The option record produced by the option declarations of `main`
(lines 27-88 of `pyan/main.py`); each default is the `default=` of the
corresponding `add_option` call.  `nspace` stands for the `namespace`
destination (a Lean keyword).  String-valued options are `Option String`,
`none` standing for the Python default `None`. -/
structure Options where
  dot : Bool := false
  tgf : Bool := false
  svg : Bool := false
  html : Bool := false
  yed : Bool := false
  filename : Option String := none
  nspace : Option String := none
  function : Option String := none
  logname : Option String := none
  verbose : Bool := false
  very_verbose : Bool := false
  draw_defines : Bool := true
  draw_uses : Bool := true
  colored : Bool := false
  grouped_alt : Bool := false
  grouped : Bool := false
  nested_groups : Bool := false
  rankdir : String := "TB"
  annotated : Bool := false
  deriving Repr, DecidableEq

/-- Python truthiness of an optional string: `None` and the empty string
are falsy, any other string is truthy. -/
def truthyStr : Option String → Bool
  | none => false
  | some s => !s.isEmpty

/-- The graph state carried by the analysis visitor and handed to the
presentation builder: a node list and an edge list, in order. -/
structure Graph where
  nodes : List String
  edges : List (String × String)
  deriving Repr, DecidableEq

/-- Lines 97-98 of `main.py`: `if options.nested_groups: options.grouped
= True`, performed before `graph_options` is built. -/
def adjustedOptions (o : Options) : Options :=
  if o.nested_groups then { o with grouped := true } else o

/-- The `graph_options` dictionary of lines 100-107 of `main.py`, in the
order the keys are written there. -/
def graph_options (o : Options) : List (String × Bool) :=
  [("draw_defines", o.draw_defines),
   ("draw_uses", o.draw_uses),
   ("colored", o.colored),
   ("grouped_alt", o.grouped_alt),
   ("grouped", o.grouped),
   ("nested_groups", o.nested_groups),
   ("annotated", o.annotated)]

/-- Log levels used by lines 111-116 of `main.py`. -/
inductive LogLevel where
  | debug
  | info
  | warn
  deriving Repr, DecidableEq

/-- A logging handler: the unconditional stream handler of line 117, or
the file handler of line 119 carrying the log file name. -/
inductive Handler where
  | stream
  | file (name : String)
  deriving Repr, DecidableEq

/-- Lines 111-116 of `main.py`: DEBUG when very verbose, else INFO when
verbose, else WARN. -/
def logLevel (o : Options) : LogLevel :=
  if o.very_verbose then .debug
  else if o.verbose then .info
  else .warn

/-- Lines 117-120 of `main.py`: a stream handler is always added; a file
handler is appended when `options.logname` is truthy. -/
def logHandlers (o : Options) : List Handler :=
  [Handler.stream] ++
    (if truthyStr o.logname then [Handler.file (o.logname.getD "")] else [])

/-- Python `s.split(".")` on a string given as a character list: splits
at every occurrence of the dot; the empty string yields `[[]]`. -/
def splitDot : List Char → List (List Char)
  | [] => [[]]
  | c :: cs =>
    if c = '.' then [] :: splitDot cs
    else
      match splitDot cs with
      | [] => [[c]]
      | s :: rest => (c :: s) :: rest

/-- Python `".".join(parts)` on character lists. -/
def intercalateDot : List (List Char) → List Char
  | [] => []
  | [s] => s
  | s :: rest => s ++ '.' :: intercalateDot rest

/-- Lines 125-126 of `main.py`: `function_name =
options.function.split(".")[-1]` and `namespace =
".".join(options.function.split(".")[:-1])`; returned as the pair
`(namespace, function_name)`. -/
def focusArgs (f : List Char) : List Char × List Char :=
  let function_name := (splitDot f).getLastD []
  let nspace := intercalateDot (splitDot f).dropLast
  (nspace, function_name)

/-- Line 127 of `main.py`: the focus node is obtained by calling the
visitor lookup with exactly the pair computed by `focusArgs`. -/
def focusNodeOf (get_node : Graph → List Char → List Char → Option String)
    (v : Graph) (f : List Char) : Option String :=
  get_node v (focusArgs f).1 (focusArgs f).2

/-- Lines 123-130 of `main.py`: when `options.function or
options.namespace` is truthy, the visitor is filtered (with the focus
node when `options.function` is truthy, else no focus); otherwise the
visitor state is passed on unchanged.  The external `filter` operation
and `get_node` lookup are abstract parameters. -/
def visitorAfterFilter
    (filterFn : Graph → Option String → Option String → Graph)
    (get_node : Graph → List Char → List Char → Option String)
    (o : Options) (v : Graph) : Graph :=
  if truthyStr o.function || truthyStr o.nspace then
    let node :=
      if truthyStr o.function then
        focusNodeOf get_node v ((o.function.getD "").data)
      else none
    filterFn v node o.nspace
  else v

/-- The five output formats, in the order their blocks appear in
`main.py` (lines 133-165). -/
inductive WriterKind where
  | dot
  | html
  | svg
  | tgf
  | yed
  deriving Repr, DecidableEq

/-- The flag of `Options` guarding each writer block. -/
def flagOf (o : Options) : WriterKind → Bool
  | .dot => o.dot
  | .html => o.html
  | .svg => o.svg
  | .tgf => o.tgf
  | .yed => o.yed

/-- Lines 133-165 of `main.py`: each format flag that is set runs its
writer on the already-built presentation graph, in the fixed textual
order dot, html, svg, tgf, yed.  A call is recorded as the pair of the
writer kind and the graph it consumes. -/
def writerCalls (o : Options) (g : Graph) : List (WriterKind × Graph) :=
  (if o.dot then [(WriterKind.dot, g)] else []) ++
  (if o.html then [(WriterKind.html, g)] else []) ++
  (if o.svg then [(WriterKind.svg, g)] else []) ++
  (if o.tgf then [(WriterKind.tgf, g)] else []) ++
  (if o.yed then [(WriterKind.yed, g)] else [])

/-- Lines 90-131 of `main.py`: glob-expand the positional arguments,
abort with a usage error when no argument was given or the expansion is
empty, otherwise build the visitor from the expanded file list, filter
it when requested, and record the writer invocations on the resulting
graph.  `globFn` and `analyze` stand for the external `glob` and
`CallGraphVisitor`; success returns the graph handed to the presentation
builder together with the writer calls. -/
def runMain (globFn : String → List String)
    (analyze : List String → Graph)
    (filterFn : Graph → Option String → Option String → Graph)
    (get_node : Graph → List Char → List Char → Option String)
    (args : List String) (o : Options) :
    Except String (Graph × List (WriterKind × Graph)) :=
  let filenames := args.flatMap globFn
  if args.length = 0 then
    .error "Need one or more filenames to process"
  else if args.length > 0 && filenames.length = 0 then
    .error ("No files found matching given glob: " ++ String.intercalate " " args)
  else
    let v := analyze filenames
    let g := visitorAfterFilter filterFn get_node (adjustedOptions o) v
    .ok (g, writerCalls o g)

/-- The kind of a named entity (spec §3). -/
inductive EntityKind where
  | module
  | cls
  | function
  | method
  deriving Repr, DecidableEq

/-- Modelled from the spec: the Entity record of §3 as far as the lookup
query needs it — the `CallGraphVisitor` node type is not under `src/`.
The qualified name is kept as a character list like the dotted-name
parsing above. -/
structure Entity where
  kind : EntityKind
  qname : List Char
  deriving Repr, DecidableEq

/-- Modelled from the spec: the qualified name a `lookup(namespace,
name)` query targets — `namespace ++ "." ++ name`, or just `name` when
the namespace is empty (§4.2). -/
def qtarget (ns name : List Char) : List Char :=
  if ns = [] then name else ns ++ '.' :: name

/-- Modelled from the spec: the public query `lookup(namespace, name)`
of §4.2 (`CallGraphVisitor.get_node`, not under `src/`): return the
unique entity whose qualified name is the target, and fail (NotFound,
here `none`) when zero or more than one entity matches. -/
def lookup (table : List Entity) (ns name : List Char) : Option Entity :=
  match table.filter (fun e => e.qname == qtarget ns name) with
  | [e] => some e
  | _ => none

/-- Modelled from the spec: the Resolver (§4.2) is not under `src/`;
an ambiguous reference resolves through the one documented
deterministic tie-break, here the lexicographically smallest qualified
name among the candidates, and an empty candidate set stays unresolved
with no edge emitted. -/
def ResolvesTo (cands : List String) (r : Option String) : Prop :=
  (cands = [] ∧ r = none) ∨
    ∃ q, q ∈ cands ∧ (∀ q' ∈ cands, q ≤ q') ∧ r = some q

/-- Modelled from the spec: a reference site found by the analysis —
the qualified name of the referring entity and the candidate targets
its name reference could resolve to. -/
structure RefSite where
  source : String
  candidates : List String
  deriving Repr, DecidableEq

/-- Modelled from the spec: every reference site resolved, in order,
through the tie-break relation. -/
def AnalysisEdges (sites : List RefSite) (resolved : List (Option String)) : Prop :=
  List.Forall₂ (fun site r => ResolvesTo site.candidates r) sites resolved

/-- Modelled from the spec: the graph assembled from the resolution
outcomes — the referring entities as nodes in order, one edge per
resolved reference in order, unresolved references omitted. -/
def graphOfResolved (sites : List RefSite) (resolved : List (Option String)) : Graph :=
  { nodes := sites.map RefSite.source,
    edges := (sites.zip resolved).flatMap fun sr =>
      match sr.2 with
      | some t => [(sr.1.source, t)]
      | none => [] }

/-- Modelled from the spec: one complete run of the analysis pipeline
of `main` (lines 122-131) on a fixed input: some resolution of every
reference site through the tie-break relation, followed by the filter
stage of `main`. -/
def PipelineRun (filterFn : Graph → Option String → Option String → Graph)
    (get_node : Graph → List Char → List Char → Option String)
    (o : Options) (sites : List RefSite) (g : Graph) : Prop :=
  ∃ resolved, AnalysisEdges sites resolved ∧
    g = visitorAfterFilter filterFn get_node o (graphOfResolved sites resolved)

/-- A string without dots is not split: Python `s.split(".") == [s]`
when `"."` does not occur in `s`. -/
theorem splitDot_no_dot : ∀ {s : List Char}, ('.' : Char) ∉ s → splitDot s = [s]
  | [], _ => rfl
  | c :: cs, h => by
    have hc : ¬c = '.' := fun hh => h (hh ▸ List.mem_cons_self c cs)
    have ih := splitDot_no_dot (fun hm => h (List.mem_cons_of_mem c hm))
    simp [splitDot, hc, ih]

/-- Splitting at the first dot: when `s` is dot-free, splitting
`s ++ "." ++ t` yields `s` followed by the split of `t`. -/
theorem splitDot_append_dot : ∀ {s : List Char} (t : List Char), ('.' : Char) ∉ s →
    splitDot (s ++ '.' :: t) = s :: splitDot t
  | [], t, _ => by simp [splitDot]
  | c :: cs, t, h => by
    have hc : ¬c = '.' := fun hh => h (hh ▸ List.mem_cons_self c cs)
    have ih := splitDot_append_dot (s := cs) t (fun hm => h (List.mem_cons_of_mem c hm))
    simp [splitDot, hc, ih]

/-- Round trip: joining dot-free segments with dots and splitting at
dots recovers the segments. -/
theorem splitDot_intercalateDot : ∀ {segs : List (List Char)}, segs ≠ [] →
    (∀ x ∈ segs, ('.' : Char) ∉ x) → splitDot (intercalateDot segs) = segs
  | [], h, _ => absurd rfl h
  | [s], _, h => by
    simpa [intercalateDot] using splitDot_no_dot (h s (by simp))
  | s :: s2 :: rest, _, h => by
    have ih := splitDot_intercalateDot (List.cons_ne_nil s2 rest)
      (fun x hx => h x (List.mem_cons_of_mem s hx))
    show splitDot (s ++ '.' :: intercalateDot (s2 :: rest)) = _
    rw [splitDot_append_dot _ (h s (by simp)), ih]

/-- Claim C1: with no focus entity and no namespace prefix (neither
`--function` nor `--namespace` given, i.e. both `None`), `main` skips
the filter call entirely, so the graph handed to the presentation
builder is the unfiltered analysis graph — same nodes and same edges. -/
theorem no_filter_is_identity
    (filterFn : Graph → Option String → Option String → Graph)
    (get_node : Graph → List Char → List Char → Option String)
    (o : Options) (v : Graph)
    (hf : o.function = none) (hn : o.nspace = none) :
    visitorAfterFilter filterFn get_node o v = v ∧
    (visitorAfterFilter filterFn get_node o v).nodes = v.nodes ∧
    (visitorAfterFilter filterFn get_node o v).edges = v.edges := by
  have h : visitorAfterFilter filterFn get_node o v = v := by
    simp [visitorAfterFilter, hf, hn, truthyStr]
  exact ⟨h, by rw [h], by rw [h]⟩

/-- Witness for C1 at a concrete graph and default options. -/
theorem no_filter_is_identity_witness :
    visitorAfterFilter (fun g _ _ => g) (fun _ _ _ => none) {}
        ⟨["m", "m.f"], [("m", "m.f")]⟩ = ⟨["m", "m.f"], [("m", "m.f")]⟩ ∧
    (visitorAfterFilter (fun g _ _ => g) (fun _ _ _ => none) {}
        ⟨["m", "m.f"], [("m", "m.f")]⟩).nodes = ["m", "m.f"] ∧
    (visitorAfterFilter (fun g _ _ => g) (fun _ _ _ => none) {}
        ⟨["m", "m.f"], [("m", "m.f")]⟩).edges = [("m", "m.f")] :=
  no_filter_is_identity _ _ _ _ rfl rfl

/-- Claim C4: the presentation options recognized by `main` are exactly
the seven keys of the `graph_options` dictionary, with `draw_defines`
and `draw_uses` defaulting to true and the five others to false; an
invocation setting none of the flags passes exactly these keys with
exactly these values. -/
theorem default_graph_options :
    graph_options (adjustedOptions {}) =
      [("draw_defines", true),
       ("draw_uses", true),
       ("colored", false),
       ("grouped_alt", false),
       ("grouped", false),
       ("nested_groups", false),
       ("annotated", false)] := rfl

/-- Claim C5: setting `nested_groups` forces `grouped`: after the
adjustment of lines 97-98, the `grouped` value placed in
`graph_options` is true whenever `nested_groups` is set, regardless of
the `grouped` flag itself. -/
theorem nested_groups_implies_grouped (o : Options)
    (h : o.nested_groups = true) :
    (adjustedOptions o).grouped = true ∧
    ("grouped", true) ∈ graph_options (adjustedOptions o) := by
  constructor
  · simp [adjustedOptions, h]
  · simp [adjustedOptions, h, graph_options]

/-- Witness for C5: an invocation setting only `nested_groups`. -/
theorem nested_groups_implies_grouped_witness :
    (adjustedOptions { nested_groups := true }).grouped = true ∧
    ("grouped", true) ∈ graph_options (adjustedOptions { nested_groups := true }) :=
  nested_groups_implies_grouped _ rfl

/-- Claim C6: on a dotted identifier built from dot-free segments, the
focus-selection path of `main` computes the leaf name as the last
segment and the namespace as the dot-joined remainder, and line 127
performs the lookup with exactly that pair. -/
theorem focus_parse_correct
    (get_node : Graph → List Char → List Char → Option String)
    (v : Graph) (segs : List (List Char))
    (hne : segs ≠ []) (hnd : ∀ x ∈ segs, ('.' : Char) ∉ x) :
    focusArgs (intercalateDot segs) =
      (intercalateDot segs.dropLast, segs.getLast hne) ∧
    focusNodeOf get_node v (intercalateDot segs) =
      get_node v (intercalateDot segs.dropLast) (segs.getLast hne) := by
  have hsplit := splitDot_intercalateDot hne hnd
  have hargs : focusArgs (intercalateDot segs) =
      (intercalateDot segs.dropLast, segs.getLast hne) := by
    simp [focusArgs, hsplit, List.getLastD_eq_getLast?, List.getLast?_eq_getLast _ hne]
  exact ⟨hargs, by simp [focusNodeOf, hargs]⟩

/-- Witness for C6 on the identifier `a.b.f`. -/
theorem focus_parse_correct_witness :
    focusArgs (intercalateDot [['a'], ['b'], ['f']]) =
      (intercalateDot ([['a'], ['b'], ['f']] : List (List Char)).dropLast,
        ([['a'], ['b'], ['f']] : List (List Char)).getLast (by simp)) ∧
    focusNodeOf (fun _ _ _ => none) ⟨[], []⟩ (intercalateDot [['a'], ['b'], ['f']]) =
      (fun _ _ _ => (none : Option String)) (⟨[], []⟩ : Graph)
        (intercalateDot ([['a'], ['b'], ['f']] : List (List Char)).dropLast)
        (([['a'], ['b'], ['f']] : List (List Char)).getLast (by simp)) :=
  focus_parse_correct _ _ _ (by simp) (by decide)

/-- Claim C9: a `--function` value without a dot splits into the empty
namespace and the whole value as leaf name, so the focus lookup is
`get_node("", value)`. -/
theorem focus_no_dot (get_node : Graph → List Char → List Char → Option String)
    (v : Graph) (s : List Char) (h : ('.' : Char) ∉ s) :
    focusArgs s = ([], s) ∧
    focusNodeOf get_node v s = get_node v [] s := by
  have hargs : focusArgs s = ([], s) := by
    simp [focusArgs, splitDot_no_dot h, intercalateDot]
  exact ⟨hargs, by simp [focusNodeOf, hargs]⟩

/-- Witness for C9 on the dot-free identifier `f`. -/
theorem focus_no_dot_witness :
    focusArgs ['f'] = ([], ['f']) ∧
    focusNodeOf (fun _ _ _ => none) ⟨[], []⟩ ['f'] =
      (fun _ _ _ => (none : Option String)) (⟨[], []⟩ : Graph) ([] : List Char) ['f'] :=
  focus_no_dot _ _ _ (by decide)

/-- Claim C2: with zero filename arguments, or with arguments whose
glob expansion matches no file, `main` aborts with the corresponding
descriptive usage error before any analysis is built: the outcome is
the error message of lines 93/95 and is independent of the analyzer,
so no `CallGraphVisitor` is ever constructed. -/
theorem runMain_aborts_without_files
    (globFn : String → List String)
    (analyze analyze2 : List String → Graph)
    (filterFn : Graph → Option String → Option String → Graph)
    (get_node : Graph → List Char → List Char → Option String)
    (args : List String) (o : Options)
    (h : args = [] ∨ args.flatMap globFn = []) :
    runMain globFn analyze filterFn get_node args o =
      .error (if args = [] then "Need one or more filenames to process"
        else "No files found matching given glob: " ++ String.intercalate " " args) ∧
    runMain globFn analyze filterFn get_node args o =
      runMain globFn analyze2 filterFn get_node args o := by
  by_cases ha : args = []
  · subst ha
    simp [runMain]
  · rcases h with h | h
    · exact absurd h ha
    · have hlen : args.length ≠ 0 := by simpa [List.length_eq_zero] using ha
      have hpos : args.length > 0 := Nat.pos_of_ne_zero hlen
      constructor <;> simp [runMain, h, ha, hlen, hpos]

/-- Witness for C2: one argument whose glob expansion is empty, under
two different analyzers. -/
theorem runMain_aborts_without_files_witness :
    runMain (fun _ => []) (fun _ => ⟨[], []⟩) (fun g _ _ => g) (fun _ _ _ => none)
        ["x"] {} =
      .error (if (["x"] : List String) = [] then "Need one or more filenames to process"
        else "No files found matching given glob: " ++ String.intercalate " " ["x"]) ∧
    runMain (fun _ => []) (fun _ => ⟨[], []⟩) (fun g _ _ => g) (fun _ _ _ => none)
        ["x"] {} =
      runMain (fun _ => []) (fun _ => ⟨["n"], []⟩) (fun g _ _ => g) (fun _ _ _ => none)
        ["x"] {} :=
  runMain_aborts_without_files _ _ _ _ _ _ _ (Or.inr rfl)

/-- Claim C3: `lookup(ns, n)` returns an entity only if it is in the
table and its qualified name is the target (`ns ++ "." ++ n`, or `n`
alone when `ns` is empty), and it returns the NotFound outcome `none`
exactly when the number of matching entities differs from one. -/
theorem lookup_spec (table : List Entity) (ns name : List Char) :
    (∀ e, lookup table ns name = some e →
      e ∈ table ∧ e.qname = qtarget ns name) ∧
    (lookup table ns name = none ↔
      table.countP (fun e => e.qname == qtarget ns name) ≠ 1) := by
  have hc : table.countP (fun e => e.qname == qtarget ns name) =
      (table.filter (fun e => e.qname == qtarget ns name)).length := by
    rw [List.countP_eq_length_filter]
  rcases hfil : table.filter (fun e => e.qname == qtarget ns name) with - | ⟨e1, tl⟩
  · constructor
    · intro e he
      simp [lookup, hfil] at he
    · simp [lookup, hfil, hc]
  · rcases tl with - | ⟨e2, rest⟩
    · constructor
      · intro e he
        have he1 : e1 ∈ table.filter (fun e => e.qname == qtarget ns name) := by
          rw [hfil]; exact List.mem_cons_self _ _
        have hmem := List.mem_filter.mp he1
        have heq : e1 = e := by simpa [lookup, hfil] using he
        subst heq
        exact ⟨hmem.1, by simpa using hmem.2⟩
      · simp [lookup, hfil, hc]
    · constructor
      · intro e he
        simp [lookup, hfil] at he
      · simp [lookup, hfil, hc]

/-- Witness for C3 on a one-entity table and an empty namespace. -/
theorem lookup_spec_witness :
    lookup [⟨EntityKind.function, ['f']⟩] [] ['f'] = none ↔
      List.countP (fun e => e.qname == qtarget [] ['f'])
        [(⟨EntityKind.function, ['f']⟩ : Entity)] ≠ 1 :=
  (lookup_spec _ _ _).2

/-- Membership in the writer-call list: a call is recorded for a kind
exactly when its flag is set, and it always consumes the built graph. -/
theorem mem_writerCalls (o : Options) (g : Graph) (k : WriterKind) (gg : Graph) :
    (k, gg) ∈ writerCalls o g ↔ (flagOf o k = true ∧ gg = g) := by
  cases hd : o.dot <;> cases hh : o.html <;> cases hs : o.svg <;>
    cases ht : o.tgf <;> cases hy : o.yed <;> cases k <;>
      simp [writerCalls, flagOf, hd, hh, hs, ht, hy]

/-- Claim C8: the five output-format flags are independent and
cumulative — the writer invocations are exactly those whose flag is
set, each consuming the same already-built presentation graph, in the
fixed order dot, html, svg, tgf, yed; with no flag set nothing runs. -/
theorem writer_flags_cumulative (o : Options) (g : Graph) :
    ((writerCalls o g).map Prod.fst =
      [WriterKind.dot, WriterKind.html, WriterKind.svg,
        WriterKind.tgf, WriterKind.yed].filter (flagOf o)) ∧
    (∀ k gg, (k, gg) ∈ writerCalls o g ↔ (flagOf o k = true ∧ gg = g)) ∧
    (writerCalls o g = [] ↔
      o.dot = false ∧ o.html = false ∧ o.svg = false ∧
        o.tgf = false ∧ o.yed = false) := by
  refine ⟨?_, fun k gg => mem_writerCalls o g k gg, ?_⟩
  · cases hd : o.dot <;> cases hh : o.html <;> cases hs : o.svg <;>
      cases ht : o.tgf <;> cases hy : o.yed <;>
        simp [writerCalls, flagOf, hd, hh, hs, ht, hy]
  · cases hd : o.dot <;> cases hh : o.html <;> cases hs : o.svg <;>
      cases ht : o.tgf <;> cases hy : o.yed <;>
        simp [writerCalls, hd, hh, hs, ht, hy]

/-- Witness for C8: with dot and tgf set, the writers that run are
exactly dot then tgf. -/
theorem writer_flags_cumulative_witness :
    (writerCalls { dot := true, tgf := true } ⟨["n"], []⟩).map Prod.fst =
      [WriterKind.dot, WriterKind.html, WriterKind.svg,
        WriterKind.tgf, WriterKind.yed].filter (flagOf { dot := true, tgf := true }) :=
  (writer_flags_cumulative _ _).1

/-- Claim C10, counterexample: giving `--log` the empty string means
`options.logname` is the (falsy) empty string, so no file handler is
added — the handler list is the stream handler alone, refuting the
claim that a file handler is added whenever `--log FILE` is given. -/
theorem log_empty_file_no_handler :
    ({ logname := some "" } : Options).logname = some "" ∧
    Handler.file "" ∉ logHandlers { logname := some "" } ∧
    logHandlers { logname := some "" } = [Handler.stream] := by
  refine ⟨rfl, ?_, rfl⟩
  intro h
  simp [logHandlers, truthyStr] at h
  exact absurd h (by decide)

/-- Claim C10 as amended: the log level is DEBUG when very-verbose is
set (regardless of verbose), else INFO when verbose is set, else WARN;
and when `--log FILE` is given with a non-empty FILE, the file handler
is added in addition to, not instead of, the stream handler. -/
theorem log_level_and_handlers (o : Options) :
    (o.very_verbose = true → logLevel o = LogLevel.debug) ∧
    (o.very_verbose = false → o.verbose = true → logLevel o = LogLevel.info) ∧
    (o.very_verbose = false → o.verbose = false → logLevel o = LogLevel.warn) ∧
    (∀ fn, o.logname = some fn → fn ≠ "" →
      logHandlers o = [Handler.stream, Handler.file fn]) := by
  refine ⟨fun h1 => ?_, fun h1 h2 => ?_, fun h1 h2 => ?_, fun fn h1 h2 => ?_⟩
  · simp [logLevel, h1]
  · simp [logLevel, h1, h2]
  · simp [logLevel, h1, h2]
  · simp [logHandlers, truthyStr, h1, h2, String.isEmpty_iff]

/-- Witness for C10: the three verbosity combinations and a non-empty
log file name. -/
theorem log_level_and_handlers_witness :
    logLevel { very_verbose := true } = LogLevel.debug ∧
    logLevel { verbose := true } = LogLevel.info ∧
    logLevel {} = LogLevel.warn ∧
    logHandlers { logname := some "run.log" } =
      [Handler.stream, Handler.file "run.log"] :=
  ⟨(log_level_and_handlers _).1 rfl,
   (log_level_and_handlers _).2.1 rfl rfl,
   (log_level_and_handlers _).2.2.1 rfl rfl,
   (log_level_and_handlers _).2.2.2 "run.log" rfl (by decide)⟩

/-- The tie-break relation is functional: a fixed candidate set admits
only one outcome, by antisymmetry of the lexicographic order. -/
theorem resolvesTo_det {c : List String} {r1 r2 : Option String}
    (h1 : ResolvesTo c r1) (h2 : ResolvesTo c r2) : r1 = r2 := by
  rcases h1 with ⟨hc1, hr1⟩ | ⟨q1, hq1, hmin1, hr1⟩
  · rcases h2 with ⟨-, hr2⟩ | ⟨q2, hq2, -, -⟩
    · rw [hr1, hr2]
    · subst hc1; cases hq2
  · rcases h2 with ⟨hc2, -⟩ | ⟨q2, hq2, hmin2, hr2⟩
    · subst hc2; cases hq1
    · subst hr1; subst hr2
      exact congrArg some (le_antisymm (hmin1 q2 hq2) (hmin2 q1 hq1))

/-- Resolving a fixed list of reference sites yields a unique list of
outcomes. -/
theorem analysisEdges_det : ∀ {sites : List RefSite}
    {r1 r2 : List (Option String)},
    AnalysisEdges sites r1 → AnalysisEdges sites r2 → r1 = r2 := by
  intro sites r1 r2 h1 h2
  rw [AnalysisEdges] at h1 h2
  induction h1 generalizing r2 with
  | nil => cases h2; rfl
  | cons hh ht ih =>
    cases h2 with
    | cons hh2 ht2 => rw [resolvesTo_det hh hh2, ih ht2]

/-- Claim C7: the pipeline is deterministic — two complete runs on the
same reference sites with the same options produce the same graph,
node for node and edge for edge in the same order, the ambiguous-name
tie-breaks included. -/
theorem pipeline_deterministic
    (filterFn : Graph → Option String → Option String → Graph)
    (get_node : Graph → List Char → List Char → Option String)
    (o : Options) (sites : List RefSite) (g1 g2 : Graph)
    (h1 : PipelineRun filterFn get_node o sites g1)
    (h2 : PipelineRun filterFn get_node o sites g2) : g1 = g2 := by
  obtain ⟨r1, ha1, hg1⟩ := h1
  obtain ⟨r2, ha2, hg2⟩ := h2
  rw [hg1, hg2, analysisEdges_det ha1 ha2]

/-- Witness for C7: a concrete one-site run, executed twice. -/
theorem pipeline_deterministic_witness :
    graphOfResolved [⟨"m.f", ["m.g"]⟩] [some "m.g"] =
      graphOfResolved [⟨"m.f", ["m.g"]⟩] [some "m.g"] := by
  have hrun : PipelineRun (fun g _ _ => g) (fun _ _ _ => none) {}
      [⟨"m.f", ["m.g"]⟩] (graphOfResolved [⟨"m.f", ["m.g"]⟩] [some "m.g"]) := by
    refine ⟨[some "m.g"], ?_, ?_⟩
    · rw [AnalysisEdges]
      exact List.Forall₂.cons (Or.inr ⟨"m.g", by simp, by simp, rfl⟩) List.Forall₂.nil
    · simp [visitorAfterFilter, truthyStr]
  exact pipeline_deterministic _ _ _ _ _ _ hrun hrun
